import Mathlib

/-!
# The panel control dialog (`panel/controls_dialog.c`)

A shallow embedding of the dialog that changes the type and the position of a
panel item, and of the loop that runs it until it is closed.

The C file keeps its data in file-level variables; here they are the fields of
one record, `Dialog`, that every function takes and returns.  `Control`
objects live in a heap addressed by pointers, because the code compares and
shares pointers (`control == current_control`).  Calls into other modules
(`groups_move`, `control_pack`, ...) are recorded, in order, in the `trace`
field.  A function returns `none` where the C code would dereference a null,
dangling or freed pointer.

Indices are C `int`s.  They are slot numbers between `0` and
`settings.num_groups`, so `backup_index + 1` and `value - 1` stay far from
the ends of the `int` range and are modelled in `Int` without wrap-around.

The two input widgets belong to the toolkit.  What the code relies on is
modelled here: a widget stores its value, and setting a value that differs
from the stored one runs the connected handler before the call returns
(`gtk_option_menu_set_history`, `gtk_spin_button_set_value`, the latter after
clamping to the range of the spinner).

The panel itself (`groups.c`) is outside this file.  Its calls are kept as
requests; `panel_move` replays `groups_move` on a list of slots.  Whether
`groups_move` also stores the new slot in the index of the control that it
moves cannot be read from this file: `pos_changed` stores the index itself
after the call, `controls_dialog_revert` does not.  Both readings are kept,
under the flag `panel_renumbers` of `Dialog`; what is proved without a
condition on the flag holds under either.
-/

namespace ControlsDialog

/-- Address of a `Control` in the heap. -/
abbrev Ptr := Nat

/-- The fields of `Control` that the dialog reads or writes: the slot index,
the class pointer and the popup flag. -/
structure Control where
  index : Int
  cclass : Nat
  with_popup : Bool
deriving DecidableEq, Repr

/-- Calls that leave this file: to the panel container (`control_unpack`,
`control_pack`, `groups_register_control`, `groups_move`, `groups_remove`), to
the allocator (`control_free`), to the confirmation prompt and to the
configuration store.  The plugin hooks that fill in a new control
(`create_control`, `control_attach_callbacks`, `control_set_settings`,
`control_add_options`) and the calls that build, show, hide or destroy
widgets are not recorded: they touch none of the fields kept in `Dialog`. -/
inductive Request where
  | control_unpack (c : Ptr)
  | control_pack (c : Ptr)
  | groups_register_control (c : Ptr)
  | groups_move (src dst : Int)
  | groups_remove (idx : Int)
  | control_free (c : Ptr)
  | confirm
  | write_panel_config
deriving DecidableEq, Repr

/-- The file-level variables of `controls_dialog.c`, the heap of controls, the
values held by the two input widgets, and the calls made so far.

* `history` is the selected entry of `type_option_menu`;
* `spin` is the value of `pos_spin`, whose range is `1 .. num_groups`;
* `page` is the current page of `notebook`;
* `revert_sensitive` is the sensitivity of the `revert` button;
* `panel_renumbers` is not a variable of the file but a fact about the panel:
  whether `groups_move` stores the new slot in the index of the control it
  moves.  No function of the file changes it.

`container` and `done` are widget handles that are only handed back to the
toolkit; they carry no data of their own and are left out. -/
structure Dialog where
  heap : List (Option Control)
  control_list : List Ptr
  old_control : Ptr
  current_control : Ptr
  backup_index : Int
  history : Nat
  spin : Int
  num_groups : Int
  panel_renumbers : Bool
  page : Nat
  revert_sensitive : Bool
  trace : List Request
deriving DecidableEq, Repr

/-- Read through a pointer: `none` for an address outside the heap or a freed
object. -/
def deref (heap : List (Option Control)) (p : Ptr) : Option Control :=
  match heap[p]? with
  | some (some c) => some c
  | _ => none

/-- Record a call to another module. -/
def emit (s : Dialog) (r : Request) : Dialog :=
  { s with trace := s.trace ++ [r] }

/-! ## The control list -/

/-- Modelled from the spec: `control_new` is defined in `controls.c`, which is
not part of the sources at hand.  The plugin registry "can construct a fresh
ControlInstance bound to a given slot index": a new object is allocated at
the next free address, with the given index.  The class is stored by the
caller (`new_control->cclass = cc`), which is folded in here.  The popup flag
of a new control is never read by this file (only the one of the original
control is) and is given as `false`. -/
def control_new (heap : List (Option Control)) (index : Int) (cc : Nat) :
    List (Option Control) × Ptr :=
  (heap ++ [some { index := index, cclass := cc, with_popup := false }], heap.length)

/-- The loop of `create_control_list` over the class list: a class equal to
the class of the original control is skipped (`continue`), every other class
gets a new control that is appended to `control_list`. -/
def create_control_list_loop (control : Ptr) : List Nat → Dialog → Option Dialog
  | [], s => some s
  | cc :: rest, s =>
    match deref s.heap control with
    | none => none
    | some c =>
      if cc = c.cclass then
        create_control_list_loop control rest s
      else
        let (heap1, new_control) := control_new s.heap c.index cc
        create_control_list_loop control rest
          { s with heap := heap1, control_list := s.control_list ++ [new_control] }

/-- The function `create_control_list`: first the original control, then one control for
each other control class.  `class_list` is the result of
`get_control_class_list ()`. -/
def create_control_list (class_list : List Nat) (control : Ptr) (s : Dialog) :
    Option Dialog :=
  create_control_list_loop control class_list
    { s with control_list := s.control_list ++ [control] }

/-- The call `control_free (control)`: the object is released; releasing an object that
is not live is an error. -/
def control_free (s : Dialog) (p : Ptr) : Option Dialog :=
  match deref s.heap p with
  | none => none
  | some _ => some (emit { s with heap := s.heap.set p none } (.control_free p))

/-- The loop of `clear_control_list`: every element of the list is freed. -/
def free_all : List Ptr → Dialog → Option Dialog
  | [], s => some s
  | p :: rest, s =>
    match control_free s p with
    | none => none
    | some s1 => free_all rest s1

/-- The function `clear_control_list`: the first occurrence of the current control is
taken out of the list (`g_slist_remove`), the remaining controls are freed and
the list is reset to `NULL`. -/
def clear_control_list (s : Dialog) : Option Dialog :=
  match free_all (s.control_list.erase s.current_control) s with
  | none => none
  | some s1 => some { s1 with control_list := [] }

/-! ## The callbacks -/

/-- The assignment `p->index = i`, for a pointer that has just been read
through. -/
def set_index (s : Dialog) (p : Ptr) (i : Int) : Dialog :=
  match deref s.heap p with
  | some c => { s with heap := s.heap.set p (some { c with index := i }) }
  | none => s

/-- Modelled from the spec: `groups_move` is defined in `groups.c`, which is
not part of the sources at hand.  The panel container "accepts reorder slot
(move) requests" and "returns the currently assigned slot index for a given
instance".  The request is recorded; when `panel_renumbers` is set, the
control registered for the moved slot, which is the current control when its
index is `src`, has the new slot stored in its index. -/
def groups_move (s : Dialog) (src dst : Int) : Dialog :=
  let s1 := emit s (.groups_move src dst)
  if s.panel_renumbers then
    match deref s.heap s.current_control with
    | some c => if c.index = src then set_index s1 s.current_control dst else s1
    | none => s1
  else s1

/-- The handler `type_option_changed`, connected to "changed" of the option menu.
`g_slist_nth` returns `NULL` past the end of the list, and `li->data` then
fails. -/
def type_option_changed (s : Dialog) : Option Dialog :=
  let n := s.history
  match s.control_list[n]? with
  | none => none
  | some control =>
    if control = s.current_control then
      some s
    else
      match deref s.heap s.current_control, deref s.heap control with
      | some cur, some c =>
        some { s with
          heap := s.heap.set control (some { c with index := cur.index })
          current_control := control
          page := n
          revert_sensitive := true
          trace := s.trace ++ [.control_unpack s.current_control,
                               .control_pack control,
                               .groups_register_control control] }
      | _, _ => none

/-- The handler `pos_changed`, connected to "value-changed" of the spin button. -/
def pos_changed (s : Dialog) : Option Dialog :=
  let n := s.spin - 1
  match deref s.heap s.current_control with
  | none => none
  | some cur =>
    let (s1, changed) :=
      if n ≠ cur.index then
        (set_index (groups_move s cur.index n) s.current_control n, true)
      else (s, false)
    if changed then some { s1 with revert_sensitive := true } else some s1

/-- The toolkit call `gtk_option_menu_set_history`: the selection is stored and
"changed" is emitted when it differs from the previous one. -/
def gtk_option_menu_set_history (s : Dialog) (n : Nat) : Option Dialog :=
  if s.history = n then some s else type_option_changed { s with history := n }

/-- The toolkit macro `CLAMP (x, low, high)` of glib. -/
def CLAMP (x low high : Int) : Int :=
  if x > high then high else if x < low then low else x

/-- The toolkit call `gtk_spin_button_set_value`: the value is clamped to the
range of the spin button, stored, and "value-changed" is emitted when it
differs from the previous value. -/
def gtk_spin_button_set_value (s : Dialog) (v : Int) : Option Dialog :=
  let v1 := CLAMP v 1 s.num_groups
  if s.spin = v1 then some s else pos_changed { s with spin := v1 }

/-- The handler `controls_dialog_revert`, together with the callbacks that its two
toolkit calls set off. -/
def controls_dialog_revert (s : Dialog) : Option Dialog :=
  match gtk_option_menu_set_history s 0 with
  | none => none
  | some s1 =>
    match deref s1.heap s1.current_control with
    | none => none
    | some cur =>
      if s1.backup_index ≠ cur.index then
        gtk_spin_button_set_value
          (groups_move s1 cur.index s1.backup_index)
          (s1.backup_index + 1)
      else some s1

/-! ## User events -/

/-- What the user can do while the dialog runs: pick entry `n` of the type
menu, set the position spinner to slot `p` (shown as `p + 1`), or click
Revert. -/
inductive UiEvent where
  | selectType (n : Nat)
  | selectPosition (p : Int)
  | revert
deriving DecidableEq, Repr

/-- Picking entry `n` of the type menu: the menu stores the selection and
`type_option_changed` runs. -/
def selectType (n : Nat) (s : Dialog) : Option Dialog :=
  type_option_changed { s with history := n }

/-- Setting the spinner to slot `newPos`: the spinner holds `newPos + 1` and
`pos_changed` runs. -/
def selectPosition (newPos : Int) (s : Dialog) : Option Dialog :=
  pos_changed { s with spin := newPos + 1 }

/-- One user event. -/
def step (s : Dialog) : UiEvent → Option Dialog
  | .selectType n => selectType n s
  | .selectPosition p => selectPosition p s
  | .revert => controls_dialog_revert s

/-- A sequence of user events, in order. -/
def run_events : Dialog → List UiEvent → Option Dialog
  | s, [] => some s
  | s, e :: es =>
    match step s e with
    | none => none
    | some s1 => run_events s1 es

/-! ## The dialog -/

def RESPONSE_DONE : Int := 0
def RESPONSE_REVERT : Int := 1
def RESPONSE_REMOVE : Int := 2

/-- The part of `controls_dialog` before the loop: the file-level variables
are set from the control, the control list is built, and the widgets are
created.  The option menu starts at entry 0 and the notebook at page 0; the
spin button is given the range `1 .. settings.num_groups` and the value
`backup_index + 1` before its handler is connected, so no callback runs.  A
new button is sensitive. -/
def controls_dialog_setup (heap : List (Option Control)) (class_list : List Nat)
    (num_groups : Int) (panel_renumbers : Bool) (control : Ptr) : Option Dialog :=
  match deref heap control with
  | none => none
  | some c =>
    match create_control_list class_list control
        { heap := heap, control_list := [], old_control := control,
          current_control := control, backup_index := c.index, history := 0,
          spin := 1, num_groups := num_groups, panel_renumbers := panel_renumbers,
          page := 0, revert_sensitive := true, trace := [] } with
    | none => none
    | some s => some { s with spin := CLAMP (s.backup_index + 1) 1 num_groups }

/-- One call of `gtk_dialog_run`: the user events handled before a button ends
the run, the response of that button, and the answer that the confirmation
prompt gives if it is asked. -/
structure Round where
  events : List UiEvent
  response : Int
  confirm : Bool
deriving DecidableEq, Repr

/-- The toolkit call `gtk_dialog_run`: the callbacks of the user events run; a click on
Revert both runs its "clicked" handler `controls_dialog_revert` and ends the
run with `RESPONSE_REVERT`. -/
def gtk_dialog_run (s : Dialog) (r : Round) : Option Dialog :=
  match run_events s r.events with
  | none => none
  | some s1 =>
    if r.response = RESPONSE_REVERT then controls_dialog_revert s1 else some s1

/-- The part of `controls_dialog` after the loop. -/
def controls_dialog_exit (s : Dialog) (response : Int) : Option Dialog :=
  match clear_control_list s with
  | none => none
  | some s1 =>
    if response = RESPONSE_REMOVE then
      match deref s1.heap s1.current_control with
      | none => none
      | some cur => some (emit (emit s1 (.groups_remove cur.index)) .write_panel_config)
    else some (emit s1 .write_panel_config)

/-- Where the dialog stands once the given rounds are used up: still inside
`gtk_dialog_run`, or closed with the response that ended the loop. -/
inductive Outcome where
  | running (s : Dialog)
  | closed (s : Dialog) (response : Int)
deriving DecidableEq, Repr

/-- The `while (1)` loop of `controls_dialog` followed by the exit path.
`control` is the argument of `controls_dialog`.  Every pass starts by making
the revert button insensitive and then calls `gtk_dialog_run`; when the
rounds are used up the dialog is waiting inside that call, so the state
reported as `running` is the one after the head of the loop. -/
def controls_dialog_loop (control : Ptr) : Dialog → List Round → Option Outcome
  | s, [] => some (.running { s with revert_sensitive := false })
  | s, r :: rs =>
    match gtk_dialog_run { s with revert_sensitive := false } r with
    | none => none
    | some s1 =>
      if r.response = RESPONSE_REMOVE then
        match deref s1.heap control with
        | none => none
        | some c =>
          if !c.with_popup then
            (controls_dialog_exit s1 r.response).map (Outcome.closed · r.response)
          else if r.confirm then
            (controls_dialog_exit (emit s1 .confirm) r.response).map
              (Outcome.closed · r.response)
          else controls_dialog_loop control (emit s1 .confirm) rs
      else if r.response ≠ RESPONSE_REVERT then
        (controls_dialog_exit s1 r.response).map (Outcome.closed · r.response)
      else controls_dialog_loop control s1 rs

/-- The function `controls_dialog (control)`, driven by the rounds of user input. -/
def controls_dialog (heap : List (Option Control)) (class_list : List Nat)
    (num_groups : Int) (panel_renumbers : Bool) (control : Ptr) (rounds : List Round) :
    Option Outcome :=
  match controls_dialog_setup heap class_list num_groups panel_renumbers control with
  | none => none
  | some s => controls_dialog_loop control s rounds

/-! ## The panel -/

/-- Modelled from the spec: the effect of a `groups_move` request on the panel
list (`groups.c` is not part of the sources at hand).  The panel is an
ordered list of slots and a
reorder request takes the item at index `src` and reinserts it at index
`dst` (at the end when `dst` is not an index of the list, as `g_slist_insert`
does); a request whose `src` is not a slot changes nothing. -/
def panel_move (panel : List Nat) (src dst : Int) : List Nat :=
  if 0 ≤ src ∧ src < panel.length then
    match panel[src.toNat]? with
    | some item =>
      let rest := panel.eraseIdx src.toNat
      if 0 ≤ dst ∧ dst ≤ rest.length then rest.insertIdx dst.toNat item
      else rest ++ [item]
    | none => panel
  else panel

/-- The effect of one request on the panel list: only `groups_move` reorders
it. -/
def panel_apply (panel : List Nat) : Request → List Nat
  | .groups_move src dst => panel_move panel src dst
  | _ => panel

/-- The panel list after the requests of a trace, oldest first. -/
def panel_after (panel : List Nat) (trace : List Request) : List Nat :=
  trace.foldl panel_apply panel

/-! ## Observations on a trace and on the heap -/

/-- The reorder requests of a trace. -/
def moves (trace : List Request) : List Request :=
  trace.filter (fun r => match r with | .groups_move _ _ => true | _ => false)

/-- The slots named by the delete requests of a trace. -/
def removals (trace : List Request) : List Int :=
  trace.filterMap (fun r => match r with | .groups_remove i => some i | _ => none)

/-- The heap after the objects in `ps` are released. -/
def free_heap (ps : List Ptr) (heap : List (Option Control)) : List (Option Control) :=
  ps.foldl (fun h p => h.set p none) heap

/-- The slot that `item` occupies in the panel list. -/
def slot_of (item : Nat) (panel : List Nat) : Nat := panel.indexOf item

/-! ## Reachable states -/

/-- The events that the widgets can deliver in state `s`: the type menu has
one entry for each control of the list, and the spinner ranges over the slots
`0 .. num_groups - 1` (shown as `1 .. num_groups`). -/
def admissible (s : Dialog) : UiEvent → Prop
  | .selectType n => n < s.control_list.length
  | .selectPosition p => 0 ≤ p ∧ p < s.num_groups
  | .revert => True

/-- What holds of the dialog whenever it waits for the user: the original
control heads the list, the menu selection points at the current control, the
controls of the list are distinct and live, the spinner shows the slot of
the current control, and the slot kept for Revert is in the range of the
spinner. -/
structure Inv (s : Dialog) : Prop where
  head : s.control_list[0]? = some s.old_control
  cur : s.control_list[s.history]? = some s.current_control
  nodup : s.control_list.Nodup
  live : ∀ p ∈ s.control_list, (deref s.heap p).isSome
  spin : ∃ c, deref s.heap s.current_control = some c ∧ s.spin = c.index + 1
  range : 0 ≤ s.backup_index ∧ s.backup_index < s.num_groups

/-- The fields that no callback writes. -/
def same_frame (s s1 : Dialog) : Prop :=
  s1.control_list = s.control_list ∧ s1.old_control = s.old_control ∧
    s1.backup_index = s.backup_index ∧ s1.num_groups = s.num_groups ∧
    s1.panel_renumbers = s.panel_renumbers

/-- The dialog and the panel agree: the panel list reached by the requests
made so far has no item twice, has `num_groups` slots, and holds `item` in the
slot named by the index of the current control. -/
def panel_inv (panel0 : List Nat) (item : Nat) (s : Dialog) : Prop :=
  (panel_after panel0 s.trace).Nodup ∧
    ((panel_after panel0 s.trace).length : Int) = s.num_groups ∧
    ∃ c, deref s.heap s.current_control = some c ∧ 0 ≤ c.index ∧
      (panel_after panel0 s.trace)[c.index.toNat]? = some item

/-! ## The scenario of the specification

Candidates `[A (original, slot 2), B, C]` on a panel of four slots. -/

def exA : Control := { index := 2, cclass := 7, with_popup := true }
def exB : Control := { index := 2, cclass := 8, with_popup := false }
def exC : Control := { index := 2, cclass := 9, with_popup := false }

/-- The file-level variables before `controls_dialog` is entered, with the
original control `A` alone in the heap. -/
def exEmpty : Dialog :=
  { heap := [some exA], control_list := [], old_control := 0, current_control := 0,
    backup_index := 2, history := 0, spin := 1, num_groups := 4,
    panel_renumbers := true, page := 0, revert_sensitive := true, trace := [] }

/-- The dialog as `controls_dialog_setup` leaves it for the original control
`A` and the classes `7, 8, 9`. -/
def exDialog : Dialog :=
  { heap := [some exA, some exB, some exC], control_list := [0, 1, 2],
    old_control := 0, current_control := 0, backup_index := 2, history := 0,
    spin := 3, num_groups := 4, panel_renumbers := true, page := 0,
    revert_sensitive := true, trace := [] }

/-- The scenario after `selectType 1`: `B` is current and the revert button is
sensitive. -/
def exDialogB : Dialog :=
  { exDialog with
    current_control := 1, history := 1, page := 1,
    trace := [.control_unpack 0, .control_pack 1, .groups_register_control 1] }

/-- A round in which the user picks type 1, clicks Remove and declines the
confirmation. -/
def exDecline : Round :=
  { events := [.selectType 1], response := RESPONSE_REMOVE, confirm := false }

/-- A round in which the user picks type 1, clicks Remove and accepts the
confirmation. -/
def exAccept : Round :=
  { events := [.selectType 1], response := RESPONSE_REMOVE, confirm := true }

/-- The state in which the dialog runs again after `exDecline`. -/
def exDeclined : Dialog :=
  { exDialogB with
    revert_sensitive := false
    trace := exDialogB.trace ++ [.confirm] }

theorem deref_lt {heap : List (Option Control)} {p : Nat} {c : Control}
    (h : deref heap p = some c) : p < heap.length := by
  unfold deref at h
  by_contra hlt
  rw [List.getElem?_eq_none (Nat.le_of_not_lt hlt)] at h
  simp at h

theorem deref_set_self {heap : List (Option Control)} {p : Ptr} (x : Option Control)
    (h : p < heap.length) : deref (heap.set p x) p = x := by
  unfold deref
  rw [List.getElem?_set_self h]
  cases x <;> rfl

theorem deref_set_ne {heap : List (Option Control)} {p q : Ptr} (x : Option Control)
    (h : p ≠ q) : deref (heap.set p x) q = deref heap q := by
  unfold deref
  rw [List.getElem?_set_ne h]

theorem deref_append {heap : List (Option Control)} {p : Ptr} {c : Control}
    (more : List (Option Control)) (h : deref heap p = some c) :
    deref (heap ++ more) p = some c := by
  have hlt := deref_lt h
  unfold deref at h ⊢
  rw [List.getElem?_append_left hlt]
  exact h

/-! ## Type selection -/

theorem type_option_changed_same (s : Dialog) (control : Ptr)
    (hn : s.control_list[s.history]? = some control)
    (heq : control = s.current_control) :
    type_option_changed s = some s := by
  unfold type_option_changed
  simp [hn, heq]

theorem type_option_changed_other (s : Dialog) (control : Ptr) (cur c : Control)
    (hn : s.control_list[s.history]? = some control)
    (hne : control ≠ s.current_control)
    (hcur : deref s.heap s.current_control = some cur)
    (hc : deref s.heap control = some c) :
    type_option_changed s = some { s with
      heap := s.heap.set control (some { c with index := cur.index })
      current_control := control
      page := s.history
      revert_sensitive := true
      trace := s.trace ++ [.control_unpack s.current_control,
                           .control_pack control,
                           .groups_register_control control] } := by
  unfold type_option_changed
  simp [hn, hne, hcur, hc]


theorem moves_append (t u : List Request) : moves (t ++ u) = moves t ++ moves u := by
  unfold moves
  exact List.filter_append t u

/-- C5: selecting entry `n` of the type menu, when the control at `n` is not
the current control, makes that control current, gives it the slot index of
the previous current control, leaves the previous control (and every other
control) and `backup_index` as they were, makes the revert button sensitive,
emits `control_unpack` of the previous control, `control_pack` and
`groups_register_control` of the new one, and emits no reorder request. -/
theorem selectType_switches (s : Dialog) (n : Nat) (cur c : Control)
    (hn : n < s.control_list.length)
    (hne : s.control_list[n] ≠ s.current_control)
    (hcur : deref s.heap s.current_control = some cur)
    (hc : deref s.heap s.control_list[n] = some c) :
    ∃ s1, selectType n s = some s1 ∧
      s1.current_control = s.control_list[n] ∧
      deref s1.heap s.control_list[n] = some { c with index := cur.index } ∧
      deref s1.heap s.current_control = some cur ∧
      (∀ p, p ≠ s.control_list[n] → deref s1.heap p = deref s.heap p) ∧
      s1.backup_index = s.backup_index ∧
      s1.control_list = s.control_list ∧
      s1.old_control = s.old_control ∧
      s1.revert_sensitive = true ∧
      s1.trace = s.trace ++ [.control_unpack s.current_control,
                             .control_pack s.control_list[n],
                             .groups_register_control s.control_list[n]] ∧
      moves s1.trace = moves s.trace := by
  have hget : ({ s with history := n } : Dialog).control_list[
      ({ s with history := n } : Dialog).history]? = some s.control_list[n] :=
    List.getElem?_eq_getElem hn
  refine ⟨_, type_option_changed_other { s with history := n } _ cur c hget hne hcur hc,
    rfl, ?_, ?_, ?_, rfl, rfl, rfl, rfl, rfl, ?_⟩
  · exact deref_set_self _ (deref_lt hc)
  · show deref (s.heap.set _ _) _ = _
    rw [deref_set_ne _ hne]
    exact hcur
  · intro p hp
    exact deref_set_ne _ (Ne.symm hp)
  · show moves (s.trace ++ _) = _
    rw [moves_append]
    simp [moves]

/-- C6: selecting entry `n` of the type menu twice is the same as selecting it
once: after the first selection the second returns the state it was given,
with every field, the sensitivity of the revert button and the list of emitted
requests unchanged. -/
theorem selectType_idempotent (s : Dialog) (n : Nat) (cur c : Control)
    (hn : n < s.control_list.length)
    (hcur : deref s.heap s.current_control = some cur)
    (hc : deref s.heap s.control_list[n] = some c) :
    ∃ s1, selectType n s = some s1 ∧ selectType n s1 = some s1 ∧
      (selectType n s).bind (selectType n) = selectType n s := by
  have hget : ({ s with history := n } : Dialog).control_list[
      ({ s with history := n } : Dialog).history]? = some s.control_list[n] :=
    List.getElem?_eq_getElem hn
  by_cases heq : s.control_list[n] = s.current_control
  · have h1 : selectType n s = some { s with history := n } :=
      type_option_changed_same { s with history := n } _ hget heq
    have h2 : selectType n { s with history := n } = some { s with history := n } := h1
    exact ⟨_, h1, h2, by rw [h1]; exact h2⟩
  · have h1 := type_option_changed_other { s with history := n } _ cur c hget heq hcur hc
    refine ⟨_, h1, ?_, ?_⟩
    · exact type_option_changed_same _ s.control_list[n] hget rfl
    · show (selectType n s).bind (selectType n) = selectType n s
      have h1s : selectType n s = _ := h1
      rw [h1s]
      exact type_option_changed_same _ s.control_list[n] hget rfl

/-! ## Position selection -/

theorem pos_changed_same (s : Dialog) (cur : Control)
    (hcur : deref s.heap s.current_control = some cur)
    (hsame : s.spin - 1 = cur.index) :
    pos_changed s = some s := by
  unfold pos_changed
  simp [hcur, hsame]

theorem set_index_eq (s : Dialog) (p : Ptr) (i : Int) (c : Control)
    (hc : deref s.heap p = some c) :
    set_index s p i = { s with heap := s.heap.set p (some { c with index := i }) } := by
  unfold set_index
  simp [hc]

/-- What a call `groups_move (current_control->index, dst)` does to the state:
the request is recorded and, when the panel renumbers, the current control
has index `dst`. -/
theorem groups_move_current (s : Dialog) (cur : Control) (dst : Int)
    (hcur : deref s.heap s.current_control = some cur) :
    groups_move s cur.index dst = { s with
      heap := if s.panel_renumbers then
          s.heap.set s.current_control (some { cur with index := dst })
        else s.heap
      trace := s.trace ++ [.groups_move cur.index dst] } := by
  unfold groups_move
  cases hflag : s.panel_renumbers
  · simp [emit, hflag]
  · have hcur1 : deref (emit s (.groups_move cur.index dst)).heap s.current_control =
        some cur := hcur
    simp only [hcur, if_true]
    rw [set_index_eq _ _ _ cur hcur1]
    simp [emit, hflag]

theorem deref_groups_move_current (s : Dialog) (cur : Control) (dst : Int)
    (hcur : deref s.heap s.current_control = some cur) :
    deref (groups_move s cur.index dst).heap s.current_control =
      some (if s.panel_renumbers then { cur with index := dst } else cur) := by
  rw [groups_move_current s cur dst hcur]
  cases hflag : s.panel_renumbers
  · simpa using hcur
  · simpa using deref_set_self _ (deref_lt hcur)

theorem pos_changed_other (s : Dialog) (cur : Control)
    (hcur : deref s.heap s.current_control = some cur)
    (hne : s.spin - 1 ≠ cur.index) :
    pos_changed s = some { s with
      heap := s.heap.set s.current_control (some { cur with index := s.spin - 1 })
      revert_sensitive := true
      trace := s.trace ++ [.groups_move cur.index (s.spin - 1)] } := by
  unfold pos_changed
  simp only [hcur, hne, ne_eq, not_false_eq_true, if_true]
  rw [set_index_eq _ _ _ _ (deref_groups_move_current s cur (s.spin - 1) hcur),
    groups_move_current s cur _ hcur]
  cases hflag : s.panel_renumbers <;> simp [List.set_set]

/-- C7: setting the position spinner to the slot that the current control
already has changes nothing but the value shown by the spinner: no reorder
request is emitted, the heap of controls (so every index) is the same, and the
sensitivity of the revert button is the same.  When the spinner already
showed that slot the state is returned as it was. -/
theorem selectPosition_same_is_noop (s : Dialog) (cur : Control)
    (hcur : deref s.heap s.current_control = some cur) :
    selectPosition cur.index s = some { s with spin := cur.index + 1 } ∧
      (∀ s1, selectPosition cur.index s = some s1 →
        s1.trace = s.trace ∧ s1.heap = s.heap ∧
        s1.revert_sensitive = s.revert_sensitive ∧
        s1.current_control = s.current_control ∧
        s1.backup_index = s.backup_index) ∧
      (s.spin = cur.index + 1 → selectPosition cur.index s = some s) := by
  have h : selectPosition cur.index s = some { s with spin := cur.index + 1 } :=
    pos_changed_same { s with spin := cur.index + 1 } cur hcur (by simp)
  refine ⟨h, ?_, ?_⟩
  · intro s1 h1
    rw [h] at h1
    cases h1
    exact ⟨rfl, rfl, rfl, rfl, rfl⟩
  · intro hs
    rw [h]
    congr 1
    cases s
    simp at hs ⊢
    exact hs.symm

/-! ## Building the control list -/

theorem create_control_list_loop_eq (control : Ptr) (c : Control) (class_list : List Nat) :
    ∀ s : Dialog, deref s.heap control = some c →
      create_control_list_loop control class_list s = some { s with
        heap := s.heap ++ (class_list.filter (fun cc => cc ≠ c.cclass)).map
          (fun cc => some { index := c.index, cclass := cc, with_popup := false })
        control_list := s.control_list ++
          List.range' s.heap.length (class_list.filter (fun cc => cc ≠ c.cclass)).length } := by
  induction class_list with
  | nil => intro s _; simp [create_control_list_loop]
  | cons cc rest ih =>
    intro s hs
    by_cases hcc : cc = c.cclass
    · simp only [create_control_list_loop, hs, hcc, if_true]
      rw [ih s hs]
      simp
    · simp only [create_control_list_loop, hs, hcc, if_false, control_new]
      rw [ih _ (deref_append _ hs)]
      simp [hcc, List.range'_succ]

/-- C9, as the code has it: run on an empty `control_list`, `create_control_list` yields
the original control at index 0, followed by one newly allocated control for
each known class other than the class of the original control, in the order
of the class list, each constructed with the slot index of the original; the
list has one entry more than there are such classes. -/
theorem create_control_list_spec (s : Dialog) (class_list : List Nat) (control : Ptr)
    (c : Control) (hempty : s.control_list = [])
    (hc : deref s.heap control = some c) :
    ∃ s1, create_control_list class_list control s = some s1 ∧
      s1.control_list = control ::
        List.range' s.heap.length (class_list.filter (fun cc => cc ≠ c.cclass)).length ∧
      s1.heap = s.heap ++ (class_list.filter (fun cc => cc ≠ c.cclass)).map
          (fun cc => some { index := c.index, cclass := cc, with_popup := false }) ∧
      s1.control_list.length = (class_list.filter (fun cc => cc ≠ c.cclass)).length + 1 ∧
      s1.control_list[0]? = some control := by
  have h := create_control_list_loop_eq control c class_list
    { s with control_list := s.control_list ++ [control] } hc
  refine ⟨_, h, ?_, rfl, ?_, ?_⟩
  · simp [hempty]
  · simp [hempty]
  · simp [hempty]

/-! ## Clearing the control list -/

theorem deref_set_none_self (heap : List (Option Control)) (p : Ptr) :
    deref (heap.set p none) p = none := by
  by_cases h : p < heap.length
  · exact deref_set_self none h
  · unfold deref
    rw [List.getElem?_eq_none (by simpa using h)]

theorem deref_free_heap (q : Ptr) (ps : List Ptr) :
    ∀ heap, deref (free_heap ps heap) q = if q ∈ ps then none else deref heap q := by
  induction ps with
  | nil => intro heap; simp [free_heap]
  | cons p rest ih =>
    intro heap
    have hstep : free_heap (p :: rest) heap = free_heap rest (heap.set p none) := rfl
    rw [hstep, ih]
    by_cases hq : q ∈ rest
    · simp [hq]
    · by_cases hqp : q = p
      · subst hqp
        simp [hq, deref_set_none_self]
      · simp [hq, hqp, deref_set_ne none (Ne.symm hqp)]

theorem free_all_eq (ps : List Ptr) :
    ∀ s : Dialog, ps.Nodup → (∀ p ∈ ps, (deref s.heap p).isSome) →
      free_all ps s = some { s with
        heap := free_heap ps s.heap
        trace := s.trace ++ ps.map Request.control_free } := by
  induction ps with
  | nil => intro s _ _; simp [free_all, free_heap]
  | cons p rest ih =>
    intro s hnd hvalid
    have hp : (deref s.heap p).isSome := hvalid p (List.mem_cons_self p rest)
    obtain ⟨c, hc⟩ := Option.isSome_iff_exists.mp hp
    have hnd2 := List.nodup_cons.mp hnd
    have hrest : ∀ q ∈ rest, (deref (s.heap.set p none) q).isSome := by
      intro q hq
      have hne : p ≠ q := fun h => hnd2.1 (h ▸ hq)
      rw [deref_set_ne none hne]
      exact hvalid q (List.mem_cons_of_mem p hq)
    simp only [free_all, control_free, hc]
    rw [ih _ hnd2.2 hrest]
    simp [emit, free_heap]

/-- C4: when the control list has no pointer twice, all its controls are live
and the current control is one of them, `clear_control_list` releases each
control other than the current one exactly once and does not release the
current control; of the controls of the list only the current one is live
afterwards, and `control_list` is empty.  This is what the exit path of
`controls_dialog` runs on the Done response, before it writes the
configuration. -/
theorem clear_control_list_keeps_current (s : Dialog)
    (hnd : s.control_list.Nodup)
    (hmem : s.current_control ∈ s.control_list)
    (hvalid : ∀ p ∈ s.control_list, (deref s.heap p).isSome) :
    ∃ s1, clear_control_list s = some s1 ∧
      s1.control_list = [] ∧
      s1.current_control = s.current_control ∧
      s1.trace = s.trace ++
        (s.control_list.erase s.current_control).map Request.control_free ∧
      (∀ p ∈ s.control_list, p ≠ s.current_control →
        (s.control_list.erase s.current_control).count p = 1 ∧
        deref s1.heap p = none) ∧
      (s.control_list.erase s.current_control).count s.current_control = 0 ∧
      deref s1.heap s.current_control = deref s.heap s.current_control ∧
      s.control_list.filter (fun p => (deref s1.heap p).isSome) = [s.current_control] ∧
      controls_dialog_exit s RESPONSE_DONE = some (emit s1 .write_panel_config) := by
  have hnd2 : (s.control_list.erase s.current_control).Nodup := hnd.erase _
  have hvalid2 : ∀ p ∈ s.control_list.erase s.current_control, (deref s.heap p).isSome :=
    fun p hp => hvalid p (List.mem_of_mem_erase hp)
  have hfree := free_all_eq _ s hnd2 hvalid2
  have hclear : clear_control_list s = some { s with
      heap := free_heap (s.control_list.erase s.current_control) s.heap
      trace := s.trace ++ (s.control_list.erase s.current_control).map Request.control_free
      control_list := [] } := by
    unfold clear_control_list
    rw [hfree]
  have hcur_not : s.current_control ∉ s.control_list.erase s.current_control :=
    fun h => (hnd.mem_erase_iff.mp h).1 rfl
  have hothers : ∀ p ∈ s.control_list, p ≠ s.current_control →
      p ∈ s.control_list.erase s.current_control :=
    fun p hp hne => hnd.mem_erase_iff.mpr ⟨hne, hp⟩
  refine ⟨_, hclear, rfl, rfl, rfl, ?_, ?_, ?_, ?_, ?_⟩
  · intro p hp hne
    refine ⟨List.count_eq_one_of_mem hnd2 (hothers p hp hne), ?_⟩
    show deref (free_heap _ _) p = none
    rw [deref_free_heap]
    simp [hothers p hp hne]
  · exact List.count_eq_zero_of_not_mem hcur_not
  · show deref (free_heap _ _) _ = _
    rw [deref_free_heap]
    simp [hcur_not]
  · have hfilter : s.control_list.filter (fun p => (deref (free_heap
        (s.control_list.erase s.current_control) s.heap) p).isSome) =
        s.control_list.filter (fun p => p == s.current_control) := by
      apply List.filter_congr
      intro p hp
      rw [deref_free_heap]
      by_cases hpc : p = s.current_control
      · subst hpc
        simp [hcur_not, hvalid _ hp]
      · simp [hothers p hp hpc, hpc]
    show s.control_list.filter (fun p => (deref (free_heap _ _) p).isSome) = _
    rw [hfilter, List.filter_beq, List.count_eq_one_of_mem hnd hmem]
    rfl
  · unfold controls_dialog_exit
    rw [hclear]
    simp [RESPONSE_DONE, RESPONSE_REMOVE]

/-! ## The response loop -/

theorem removals_append (t u : List Request) :
    removals (t ++ u) = removals t ++ removals u := by
  unfold removals
  exact List.filterMap_append t u _

theorem removals_control_free (ps : List Ptr) :
    removals (ps.map Request.control_free) = [] := by
  induction ps with
  | nil => rfl
  | cons p rest ih => simp [removals]

theorem clear_control_list_eq (s : Dialog)
    (hnd : s.control_list.Nodup)
    (hvalid : ∀ p ∈ s.control_list, (deref s.heap p).isSome) :
    clear_control_list s = some { s with
      heap := free_heap (s.control_list.erase s.current_control) s.heap
      trace := s.trace ++ (s.control_list.erase s.current_control).map Request.control_free
      control_list := [] } := by
  unfold clear_control_list
  rw [free_all_eq _ s (hnd.erase _) (fun p hp => hvalid p (List.mem_of_mem_erase hp))]

theorem controls_dialog_exit_remove (s : Dialog) (cur : Control)
    (hnd : s.control_list.Nodup)
    (hvalid : ∀ p ∈ s.control_list, (deref s.heap p).isSome)
    (hcur : deref s.heap s.current_control = some cur) :
    ∃ s2, controls_dialog_exit s RESPONSE_REMOVE = some s2 ∧
      s2.trace = s.trace ++
        (s.control_list.erase s.current_control).map Request.control_free ++
        [.groups_remove cur.index, .write_panel_config] := by
  have hcur_not : s.current_control ∉ s.control_list.erase s.current_control :=
    fun h => (hnd.mem_erase_iff.mp h).1 rfl
  have hlive : deref (free_heap (s.control_list.erase s.current_control) s.heap)
      s.current_control = some cur := by
    rw [deref_free_heap]
    simp [hcur_not, hcur]
  unfold controls_dialog_exit
  rw [clear_control_list_eq s hnd hvalid]
  simp [hlive, emit]

theorem controls_dialog_exit_other (s : Dialog) (response : Int)
    (hresp : response ≠ RESPONSE_REMOVE)
    (hnd : s.control_list.Nodup)
    (hvalid : ∀ p ∈ s.control_list, (deref s.heap p).isSome) :
    ∃ s2, controls_dialog_exit s response = some s2 ∧
      s2.trace = s.trace ++
        (s.control_list.erase s.current_control).map Request.control_free ++
        [.write_panel_config] := by
  unfold controls_dialog_exit
  rw [clear_control_list_eq s hnd hvalid]
  simp [hresp, emit]

/-- C10: when `gtk_dialog_run` returns the remove response and the original
control has no popup or the confirmation prompt is accepted, the loop ends,
the dialog closes with the remove response, and from the response on the
requests are: the confirmation prompt exactly when `with_popup` is set, the
release of the controls that are not current, one `groups_remove` for the
index of the current control, and `write_panel_config`.  When it returns the
Done response the dialog closes and no `groups_remove` is emitted. -/
theorem remove_closes_dialog (control : Ptr) (s s1 : Dialog) (r : Round)
    (rs : List Round) (c cur : Control)
    (hrun : gtk_dialog_run { s with revert_sensitive := false } r = some s1)
    (hc : deref s1.heap control = some c)
    (hnd : s1.control_list.Nodup)
    (hvalid : ∀ p ∈ s1.control_list, (deref s1.heap p).isSome)
    (hcur : deref s1.heap s1.current_control = some cur) :
    (r.response = RESPONSE_REMOVE → (c.with_popup = false ∨ r.confirm = true) →
      ∃ s2, controls_dialog_loop control s (r :: rs) = some (.closed s2 RESPONSE_REMOVE) ∧
        s2.trace = s1.trace ++ (if c.with_popup then [Request.confirm] else []) ++
          (s1.control_list.erase s1.current_control).map Request.control_free ++
          [.groups_remove cur.index, .write_panel_config] ∧
        removals s2.trace = removals s1.trace ++ [cur.index]) ∧
    (r.response = RESPONSE_DONE →
      ∃ s2, controls_dialog_loop control s (r :: rs) = some (.closed s2 RESPONSE_DONE) ∧
        s2.trace = s1.trace ++
          (s1.control_list.erase s1.current_control).map Request.control_free ++
          [.write_panel_config] ∧
        removals s2.trace = removals s1.trace) := by
  constructor
  · intro hresp hok
    by_cases hpop : c.with_popup = true
    · have hconf : r.confirm = true := by
        rcases hok with h | h
        · rw [hpop] at h; cases h
        · exact h
      obtain ⟨s2, h2, ht⟩ := controls_dialog_exit_remove (emit s1 .confirm) cur hnd hvalid hcur
      refine ⟨s2, ?_, ?_, ?_⟩
      · simp only [controls_dialog_loop, hrun, hresp, hc, hpop, hconf, if_true]
        simp [h2]
      · rw [ht]; simp [emit, hpop]
      · rw [ht]
        simp [emit, removals_append, removals_control_free]
        simp [removals]
    · have hpop2 : c.with_popup = false := by simpa using hpop
      obtain ⟨s2, h2, ht⟩ := controls_dialog_exit_remove s1 cur hnd hvalid hcur
      refine ⟨s2, ?_, ?_, ?_⟩
      · simp only [controls_dialog_loop, hrun, hresp, hc, hpop2, if_true]
        simp [h2]
      · rw [ht]; simp [hpop2]
      · rw [ht]
        simp [removals_append, removals_control_free]
        simp [removals]
  · intro hresp
    have hne : RESPONSE_DONE ≠ RESPONSE_REMOVE := by decide
    have hne2 : RESPONSE_DONE ≠ RESPONSE_REVERT := by decide
    obtain ⟨s2, h2, ht⟩ := controls_dialog_exit_other s1 RESPONSE_DONE hne hnd hvalid
    refine ⟨s2, ?_, ht, ?_⟩
    · simp only [controls_dialog_loop, hrun, hresp, hne, if_false]
      simp [h2, hne2]
    · rw [ht]
      simp [removals_append, removals_control_free]
      simp [removals]

/-- C3, as the code has it: when `gtk_dialog_run` returns the remove response,
the original control has `with_popup` set and the confirmation prompt is
declined, the loop goes round again with the state it had at the response:
the dialog is running, the heap (so every index), the control list, the
current control and `backup_index` are unchanged, the only request emitted is
the confirmation prompt, and the revert button is insensitive, because the
head of the loop sets it so on every pass. -/
theorem remove_declined_keeps_dialog (control : Ptr) (s s1 : Dialog) (r : Round)
    (rs : List Round) (c : Control)
    (hresp : r.response = RESPONSE_REMOVE)
    (hrun : gtk_dialog_run { s with revert_sensitive := false } r = some s1)
    (hc : deref s1.heap control = some c)
    (hpop : c.with_popup = true)
    (hno : r.confirm = false) :
    controls_dialog_loop control s (r :: rs) =
        controls_dialog_loop control (emit s1 .confirm) rs ∧
      controls_dialog_loop control s [r] = some (.running { s1 with
        revert_sensitive := false
        trace := s1.trace ++ [.confirm] }) := by
  have h : ∀ rest, controls_dialog_loop control s (r :: rest) =
      controls_dialog_loop control (emit s1 .confirm) rest := by
    intro rest
    simp only [controls_dialog_loop, hrun, hresp, hc, hpop, hno, if_true]
    simp
  refine ⟨h rs, ?_⟩
  rw [h []]
  rfl

/-! ## Reachable states -/

theorem same_frame_refl (s : Dialog) : same_frame s s := ⟨rfl, rfl, rfl, rfl, rfl⟩

theorem same_frame_trans {a b c : Dialog} (h1 : same_frame a b) (h2 : same_frame b c) :
    same_frame a c :=
  ⟨h2.1.trans h1.1, h2.2.1.trans h1.2.1, h2.2.2.1.trans h1.2.2.1,
    h2.2.2.2.1.trans h1.2.2.2.1, h2.2.2.2.2.trans h1.2.2.2.2⟩

theorem live_set {heap : List (Option Control)} {l : List Ptr} (q : Ptr) (x : Control)
    (h : ∀ p ∈ l, (deref heap p).isSome) (hq : q < heap.length) :
    ∀ p ∈ l, (deref (heap.set q (some x)) p).isSome := by
  intro p hp
  by_cases hpq : q = p
  · subst hpq
    rw [deref_set_self _ hq]
    rfl
  · rw [deref_set_ne _ hpq]
    exact h p hp

theorem selectType_inv (s : Dialog) (n : Nat) (hinv : Inv s)
    (hn : n < s.control_list.length) :
    ∃ s1, selectType n s = some s1 ∧ Inv s1 ∧ same_frame s s1 ∧ s1.history = n ∧
      moves s1.trace = moves s.trace ∧
      ∀ c0, deref s.heap s.current_control = some c0 →
        ∃ c1, deref s1.heap s1.current_control = some c1 ∧ c1.index = c0.index := by
  have hget : ({ s with history := n } : Dialog).control_list[
      ({ s with history := n } : Dialog).history]? = some s.control_list[n] :=
    List.getElem?_eq_getElem hn
  obtain ⟨cur, hcur, hspin⟩ := hinv.spin
  by_cases heq : s.control_list[n] = s.current_control
  · refine ⟨_, type_option_changed_same { s with history := n } _ hget heq, ?_,
      same_frame_refl s, rfl, rfl, fun c0 h0 => ⟨c0, h0, rfl⟩⟩
    exact ⟨hinv.head, by rw [← heq]; exact hget, hinv.nodup, hinv.live, ⟨cur, hcur, hspin⟩,
      hinv.range⟩
  · obtain ⟨c, hc⟩ := Option.isSome_iff_exists.mp
      (hinv.live _ (List.getElem_mem hn))
    refine ⟨_, type_option_changed_other { s with history := n } _ cur c hget heq hcur hc, ?_,
      same_frame_refl s, rfl, ?_, ?_⟩
    · refine ⟨hinv.head, hget, hinv.nodup, live_set _ _ hinv.live (deref_lt hc), ?_,
        hinv.range⟩
      exact ⟨_, deref_set_self _ (deref_lt hc), hspin⟩
    · show moves (s.trace ++ _) = _
      rw [moves_append]
      simp [moves]
    · intro c0 h0
      have hcc : c0 = cur := Option.some.inj (h0.symm.trans hcur)
      exact ⟨_, deref_set_self _ (deref_lt hc), by rw [hcc]⟩

theorem selectPosition_inv (s : Dialog) (p : Int) (hinv : Inv s) :
    ∃ s1, selectPosition p s = some s1 ∧ Inv s1 ∧ same_frame s s1 ∧
      s1.history = s.history ∧
      ∃ c, deref s1.heap s1.current_control = some c ∧ c.index = p := by
  obtain ⟨cur, hcur, _⟩ := hinv.spin
  by_cases heq : p = cur.index
  · refine ⟨_, pos_changed_same { s with spin := p + 1 } cur hcur (by simp [heq]), ?_,
      same_frame_refl s, rfl, cur, hcur, heq.symm⟩
    exact ⟨hinv.head, hinv.cur, hinv.nodup, hinv.live, ⟨cur, hcur, by simp [heq]⟩, hinv.range⟩
  · have hne : ({ s with spin := p + 1 } : Dialog).spin - 1 ≠ cur.index := by
      simpa using heq
    refine ⟨_, pos_changed_other { s with spin := p + 1 } cur hcur hne, ?_,
      same_frame_refl s, rfl, ?_⟩
    · refine ⟨hinv.head, hinv.cur, hinv.nodup, live_set _ _ hinv.live (deref_lt hcur), ?_,
        hinv.range⟩
      exact ⟨_, deref_set_self _ (deref_lt hcur), by simp⟩
    · exact ⟨_, deref_set_self _ (deref_lt hcur), by simp⟩

theorem CLAMP_of_mem (v high : Int) (h1 : 1 ≤ v) (h2 : v ≤ high) : CLAMP v 1 high = v := by
  unfold CLAMP
  rw [if_neg (by omega), if_neg (by omega)]

/-- The second half of `controls_dialog_revert`, when the slot of the current
control differs from the kept one: after the call of `groups_move` the spinner
is set and its value changes, so `pos_changed` runs.  When the panel has
renumbered the control, `pos_changed` finds the index in place and does
nothing; otherwise it calls `groups_move` once more before it stores the
index. -/
theorem set_value_after_move (s1 : Dialog) (c : Control)
    (hc : deref s1.heap s1.current_control = some c)
    (hb : s1.backup_index ≠ c.index)
    (hspin : s1.spin = c.index + 1)
    (hrange : 0 ≤ s1.backup_index ∧ s1.backup_index < s1.num_groups) :
    gtk_spin_button_set_value (groups_move s1 c.index s1.backup_index)
        (s1.backup_index + 1) = some { s1 with
      heap := s1.heap.set s1.current_control (some { c with index := s1.backup_index })
      spin := s1.backup_index + 1
      revert_sensitive := s1.revert_sensitive || !s1.panel_renumbers
      trace := s1.trace ++
        (if s1.panel_renumbers then [.groups_move c.index s1.backup_index]
          else [.groups_move c.index s1.backup_index,
                .groups_move c.index s1.backup_index]) } := by
  have hclamp : CLAMP (s1.backup_index + 1) 1 s1.num_groups = s1.backup_index + 1 :=
    CLAMP_of_mem _ _ (by omega) (by omega)
  have hspin_ne : ¬ (s1.spin = s1.backup_index + 1) := by
    rw [hspin]
    omega
  have hlt := deref_lt hc
  rw [groups_move_current s1 c _ hc]
  unfold gtk_spin_button_set_value
  simp only [hclamp, if_neg hspin_ne]
  by_cases hflag : s1.panel_renumbers = true
  swap
  · simp only [if_neg hflag]
    refine (pos_changed_other { s1 with
      spin := s1.backup_index + 1
      trace := s1.trace ++ [.groups_move c.index s1.backup_index] } c hc ?_).trans ?_
    · show s1.backup_index + 1 - 1 ≠ c.index
      omega
    · simp [hflag]
  · simp only [if_pos hflag]
    refine (pos_changed_same { s1 with
      heap := s1.heap.set s1.current_control (some { c with index := s1.backup_index })
      spin := s1.backup_index + 1
      trace := s1.trace ++ [.groups_move c.index s1.backup_index] }
      { c with index := s1.backup_index } (deref_set_self _ hlt) ?_).trans ?_
    · show s1.backup_index + 1 - 1 = s1.backup_index
      omega
    · simp [hflag]

theorem revert_inv (s : Dialog) (hinv : Inv s) :
    ∃ s1 c c0, controls_dialog_revert s = some s1 ∧ Inv s1 ∧ same_frame s s1 ∧
      s1.history = 0 ∧ s1.current_control = s1.old_control ∧
      deref s1.heap s1.old_control = some c ∧ c.index = s1.backup_index ∧
      deref s.heap s.current_control = some c0 ∧
      moves s1.trace = moves s.trace ++
        (if s.backup_index ≠ c0.index then
          (if s.panel_renumbers then [.groups_move c0.index s.backup_index]
            else [.groups_move c0.index s.backup_index,
                  .groups_move c0.index s.backup_index])
        else []) := by
  have hlen : 0 < s.control_list.length := by
    have := hinv.head
    rw [List.getElem?_eq_some] at this
    exact this.1
  obtain ⟨c0, hc0, _⟩ := hinv.spin
  -- the option menu goes back to entry 0
  have hmenu : ∃ s1, gtk_option_menu_set_history s 0 = some s1 ∧ Inv s1 ∧
      same_frame s s1 ∧ s1.history = 0 ∧ moves s1.trace = moves s.trace ∧
      ∃ c1, deref s1.heap s1.current_control = some c1 ∧ c1.index = c0.index := by
    unfold gtk_option_menu_set_history
    by_cases h0 : s.history = 0
    · rw [if_pos h0]
      exact ⟨s, rfl, hinv, same_frame_refl s, h0, rfl, c0, hc0, rfl⟩
    · rw [if_neg h0]
      obtain ⟨s1, h1, h2, h3, h4, h5, h6⟩ := selectType_inv s 0 hinv hlen
      exact ⟨s1, h1, h2, h3, h4, h5, h6 c0 hc0⟩
  obtain ⟨s1, hs1, hinv1, hfr1, hh1, hmv1, c, hc, hidx⟩ := hmenu
  have hcurold : s1.current_control = s1.old_control := by
    have h1 := hinv1.cur
    rw [hh1, hinv1.head] at h1
    exact (Option.some.inj h1).symm
  have hspin : s1.spin = c.index + 1 := by
    obtain ⟨c2, hc2, hsp⟩ := hinv1.spin
    have : c2 = c := Option.some.inj (hc2.symm.trans hc)
    rw [hsp, this]
  have hback : s1.backup_index = s.backup_index := hfr1.2.2.1
  by_cases hb : s1.backup_index = c.index
  · refine ⟨s1, c, c0, ?_, hinv1, hfr1, hh1, hcurold, hcurold ▸ hc, hb.symm, hc0, ?_⟩
    · unfold controls_dialog_revert
      simp [hs1, hc, hb]
    · rw [hmv1, if_neg (by rw [← hback, ← hidx]; exact not_not.mpr hb)]
      simp
  · -- the spinner is set to the kept slot and its handler runs
    have hlt := deref_lt hc
    have hflag : s1.panel_renumbers = s.panel_renumbers := hfr1.2.2.2.2
    refine ⟨{ s1 with
        heap := s1.heap.set s1.current_control (some { c with index := s1.backup_index })
        spin := s1.backup_index + 1
        revert_sensitive := s1.revert_sensitive || !s1.panel_renumbers
        trace := s1.trace ++
          (if s1.panel_renumbers then [.groups_move c.index s1.backup_index]
            else [.groups_move c.index s1.backup_index,
                  .groups_move c.index s1.backup_index]) },
      { c with index := s1.backup_index }, c0, ?_, ?_, hfr1, hh1, hcurold, ?_, rfl, hc0, ?_⟩
    · unfold controls_dialog_revert
      simp only [hs1, hc]
      rw [if_pos hb]
      exact set_value_after_move s1 c hc hb hspin hinv1.range
    · refine ⟨hinv1.head, hinv1.cur, hinv1.nodup, live_set _ _ hinv1.live hlt, ?_, hinv1.range⟩
      exact ⟨_, deref_set_self _ hlt, rfl⟩
    · show deref (List.set _ s1.current_control _) s1.old_control = _
      rw [← hcurold]
      exact deref_set_self _ hlt
    · show moves (s1.trace ++ _) = _
      have hcond : s.backup_index ≠ c0.index := by rw [← hback, ← hidx]; exact hb
      rw [moves_append, hmv1, if_pos hcond, ← hflag, ← hback, ← hidx]
      by_cases hf : s1.panel_renumbers = true
      · simp [hf, moves]
      · simp [hf, moves]

theorem admissible_frame {s s1 : Dialog} (h : same_frame s s1) (e : UiEvent)
    (ha : admissible s e) : admissible s1 e := by
  cases e with
  | selectType n => show n < s1.control_list.length; rw [h.1]; exact ha
  | selectPosition p => show 0 ≤ p ∧ p < s1.num_groups; rw [h.2.2.2.1]; exact ha
  | revert => trivial

theorem step_inv (s : Dialog) (e : UiEvent) (hinv : Inv s) (ha : admissible s e) :
    ∃ s1, step s e = some s1 ∧ Inv s1 ∧ same_frame s s1 := by
  cases e with
  | selectType n =>
    obtain ⟨s1, h1, h2, h3, _⟩ := selectType_inv s n hinv ha
    exact ⟨s1, h1, h2, h3⟩
  | selectPosition p =>
    obtain ⟨s1, h1, h2, h3, _⟩ := selectPosition_inv s p hinv
    exact ⟨s1, h1, h2, h3⟩
  | revert =>
    obtain ⟨s1, _, _, h1, h2, h3, _⟩ := revert_inv s hinv
    exact ⟨s1, h1, h2, h3⟩

theorem run_events_inv (evs : List UiEvent) :
    ∀ s : Dialog, Inv s → (∀ e ∈ evs, admissible s e) →
      ∃ s1, run_events s evs = some s1 ∧ Inv s1 ∧ same_frame s s1 := by
  induction evs with
  | nil => intro s hinv _; exact ⟨s, rfl, hinv, same_frame_refl s⟩
  | cons e rest ih =>
    intro s hinv ha
    obtain ⟨s1, h1, hinv1, hfr1⟩ := step_inv s e hinv (ha e (List.mem_cons_self e rest))
    obtain ⟨s2, h2, hinv2, hfr2⟩ := ih s1 hinv1
      (fun e1 he1 => admissible_frame hfr1 e1 (ha e1 (List.mem_cons_of_mem e he1)))
    refine ⟨s2, ?_, hinv2, same_frame_trans hfr1 hfr2⟩
    simp only [run_events, h1]
    exact h2

/-! ## The initial state -/

theorem deref_new_controls (heap : List (Option Control)) (f : Nat → Control)
    (classes : List Nat) (p : Nat) (hp : p ∈ List.range' heap.length classes.length) :
    (deref (heap ++ classes.map (fun cc => some (f cc))) p).isSome := by
  rw [List.mem_range'_1] at hp
  obtain ⟨hp1, hp2⟩ := hp
  unfold deref
  rw [List.getElem?_append_right hp1]
  have hlt : p - heap.length < (classes.map (fun cc => some (f cc))).length := by
    rw [List.length_map]
    omega
  rw [List.getElem?_eq_getElem hlt]
  simp

theorem controls_dialog_setup_inv (heap : List (Option Control)) (class_list : List Nat)
    (num_groups : Int) (renumbers : Bool) (control : Ptr) (c : Control)
    (hc : deref heap control = some c)
    (hrange : 0 ≤ c.index ∧ c.index < num_groups) :
    ∃ s0, controls_dialog_setup heap class_list num_groups renumbers control = some s0 ∧
      Inv s0 ∧ s0.panel_renumbers = renumbers ∧
      s0.old_control = control ∧ s0.current_control = control ∧
      s0.backup_index = c.index ∧ s0.num_groups = num_groups ∧
      s0.control_list = control ::
        List.range' heap.length (class_list.filter (fun cc => cc ≠ c.cclass)).length ∧
      s0.trace = [] ∧ deref s0.heap control = some c := by
  have hloop := create_control_list_loop_eq control c class_list
    { heap := heap, control_list := [] ++ [control], old_control := control,
      current_control := control, backup_index := c.index, history := 0,
      spin := 1, num_groups := num_groups, panel_renumbers := renumbers, page := 0,
      revert_sensitive := true, trace := [] } hc
  have hlt := deref_lt hc
  have hsetup : controls_dialog_setup heap class_list num_groups renumbers control = some
      { heap := heap ++ (class_list.filter (fun cc => cc ≠ c.cclass)).map
          (fun cc => some { index := c.index, cclass := cc, with_popup := false }),
        control_list := control ::
          List.range' heap.length (class_list.filter (fun cc => cc ≠ c.cclass)).length,
        old_control := control, current_control := control, backup_index := c.index,
        history := 0, spin := CLAMP (c.index + 1) 1 num_groups, num_groups := num_groups,
        panel_renumbers := renumbers, page := 0, revert_sensitive := true,
        trace := [] } := by
    unfold controls_dialog_setup create_control_list
    simp only [hc]
    rw [hloop]
    rfl
  refine ⟨_, hsetup, ?_, rfl, rfl, rfl, rfl, rfl, rfl, rfl, deref_append _ hc⟩
  · refine ⟨by simp, by simp, ?_, ?_, ?_, hrange⟩
    · show (control :: List.range' _ _).Nodup
      rw [List.nodup_cons]
      refine ⟨?_, List.nodup_range' _ _⟩
      intro hmem
      rw [List.mem_range'_1] at hmem
      omega
    · intro p hp
      have hp2 : p = control ∨ p ∈ List.range' heap.length
          (class_list.filter (fun cc => cc ≠ c.cclass)).length := by
        simpa using hp
      rcases hp2 with h | h
      · subst h
        show (deref (heap ++ _) p).isSome
        rw [deref_append _ hc]
        rfl
      · exact deref_new_controls heap
          (fun cc => { index := c.index, cclass := cc, with_popup := false }) _ p h
    · refine ⟨c, deref_append _ hc, ?_⟩
      exact CLAMP_of_mem _ _ (by omega) (by omega)

/-- In a state that satisfies the invariant the exit path finds what it
needs: the controls of the list are distinct and live, and the current
control is one of them. -/
theorem inv_exit_ready (s : Dialog) (hinv : Inv s) :
    s.control_list.Nodup ∧ s.current_control ∈ s.control_list ∧
      ∀ p ∈ s.control_list, (deref s.heap p).isSome :=
  ⟨hinv.nodup, List.getElem?_mem hinv.cur, hinv.live⟩

/-- C1: let the dialog be opened on a live control whose index is a slot of
the panel.  After any finite sequence of type selections, position selections
and reverts that the widgets can deliver, `controls_dialog_revert` (with the
"changed" and "value-changed" callbacks that it sets off) returns, and
afterwards the current control is the original control, which is entry 0 of
the control list, and its index is `backup_index`, the index it had when the
dialog was opened.  This holds whether or not `groups_move` stores the new
slot in the control. -/
theorem revert_restores_original (heap : List (Option Control)) (class_list : List Nat)
    (num_groups : Int) (renumbers : Bool) (control : Ptr) (c : Control)
    (hc : deref heap control = some c)
    (hrange : 0 ≤ c.index ∧ c.index < num_groups) :
    ∃ s0, controls_dialog_setup heap class_list num_groups renumbers control = some s0 ∧
      ∀ evs : List UiEvent, (∀ e ∈ evs, admissible s0 e) →
        ∃ s s1 c1, run_events s0 evs = some s ∧
          controls_dialog_revert s = some s1 ∧
          s1.current_control = control ∧
          s1.control_list[0]? = some control ∧
          deref s1.heap control = some c1 ∧
          c1.index = s1.backup_index ∧
          s1.backup_index = c.index := by
  obtain ⟨s0, hs0, hinv0, _, hold, _, hback, _, _, _, _⟩ :=
    controls_dialog_setup_inv heap class_list num_groups renumbers control c hc hrange
  refine ⟨s0, hs0, ?_⟩
  intro evs hadm
  obtain ⟨s, hs, hinv, hfr⟩ := run_events_inv evs s0 hinv0 hadm
  obtain ⟨s1, c1, _, hs1, hinv1, hfr1, _, hcur1, hderef1, hidx1, _⟩ := revert_inv s hinv
  have hold1 : s1.old_control = control := by rw [hfr1.2.1, hfr.2.1, hold]
  refine ⟨s, s1, c1, hs, hs1, ?_, ?_, ?_, hidx1, ?_⟩
  · rw [hcur1, hold1]
  · rw [hinv1.head, hold1]
  · rw [← hold1]; exact hderef1
  · rw [hfr1.2.2.1, hfr.2.2.1, hback]

/-! ## The panel list under type and position selections -/

theorem panel_after_append (panel0 : List Nat) (t u : List Request) :
    panel_after panel0 (t ++ u) = panel_after (panel_after panel0 t) u := by
  unfold panel_after
  exact List.foldl_append _ _ _ _

theorem panel_move_slot (panel : List Nat) (item : Nat) (src dst : Int)
    (hnd : panel.Nodup) (hsrc : 0 ≤ src) (hitem : panel[src.toNat]? = some item)
    (hdst : 0 ≤ dst ∧ dst < panel.length) :
    (panel_move panel src dst).Nodup ∧
      (panel_move panel src dst).length = panel.length ∧
      (panel_move panel src dst)[dst.toNat]? = some item := by
  obtain ⟨hlt, hget⟩ := List.getElem?_eq_some.mp hitem
  have hlen : (panel.eraseIdx src.toNat).length = panel.length - 1 :=
    List.length_eraseIdx_of_lt hlt
  have hle : dst.toNat ≤ (panel.eraseIdx src.toNat).length := by omega
  have hmove : panel_move panel src dst =
      (panel.eraseIdx src.toNat).insertIdx dst.toNat item := by
    unfold panel_move
    rw [if_pos ⟨hsrc, by omega⟩]
    simp only [hitem]
    rw [if_pos ⟨hdst.1, by omega⟩]
  have hperm : ((panel.eraseIdx src.toNat).insertIdx dst.toNat item).Perm panel := by
    refine (List.perm_insertIdx item _ hle).trans ?_
    have herase : panel.eraseIdx src.toNat = panel.erase item := by
      rw [← hget]
      exact (hnd.erase_getElem src.toNat hlt).symm
    rw [herase]
    exact (List.perm_cons_erase (List.getElem?_mem hitem)).symm
  rw [hmove]
  refine ⟨hperm.nodup_iff.mpr hnd, hperm.length_eq, ?_⟩
  rw [List.getElem?_eq_some]
  have hlt2 : dst.toNat < ((panel.eraseIdx src.toNat).insertIdx dst.toNat item).length := by
    rw [List.length_insertIdx _ _ hle]
    omega
  exact ⟨hlt2, List.getElem_insertIdx_self _ _ _ hle hlt2⟩

theorem selectType_panel (panel0 : List Nat) (item : Nat) (s : Dialog) (n : Nat)
    (hinv : Inv s) (hn : n < s.control_list.length) (hp : panel_inv panel0 item s) :
    ∃ s1, selectType n s = some s1 ∧ Inv s1 ∧ same_frame s s1 ∧ panel_inv panel0 item s1 := by
  obtain ⟨hpn, hpl, c, hc, hc0, hslot⟩ := hp
  have hget : ({ s with history := n } : Dialog).control_list[
      ({ s with history := n } : Dialog).history]? = some s.control_list[n] :=
    List.getElem?_eq_getElem hn
  obtain ⟨s1, h1, hinv1, hfr1, _, _, hidx⟩ := selectType_inv s n hinv hn
  refine ⟨s1, h1, hinv1, hfr1, ?_⟩
  obtain ⟨c1, hc1, hci⟩ := hidx c hc
  have htrace : panel_after panel0 s1.trace = panel_after panel0 s.trace := by
    by_cases heq : s.control_list[n] = s.current_control
    · have h2 := type_option_changed_same { s with history := n } _ hget heq
      have h3 : some s1 = some { s with history := n } := h1.symm.trans h2
      rw [Option.some.inj h3]
    · obtain ⟨cn, hcn⟩ := Option.isSome_iff_exists.mp (hinv.live _ (List.getElem_mem hn))
      have h2 := type_option_changed_other { s with history := n } _ c cn hget heq hc hcn
      have h3 : some s1 = some _ := h1.symm.trans h2
      rw [Option.some.inj h3]
      show panel_after panel0 (s.trace ++ _) = _
      rw [panel_after_append]
      rfl
  rw [panel_inv, htrace, hfr1.2.2.2.1]
  exact ⟨hpn, hpl, c1, hc1, by rw [hci]; exact hc0, by rw [hci]; exact hslot⟩

theorem selectPosition_panel (panel0 : List Nat) (item : Nat) (s : Dialog) (p : Int)
    (hinv : Inv s) (hrange : 0 ≤ p ∧ p < s.num_groups) (hp : panel_inv panel0 item s) :
    ∃ s1, selectPosition p s = some s1 ∧ Inv s1 ∧ same_frame s s1 ∧
      panel_inv panel0 item s1 := by
  obtain ⟨hpn, hpl, c, hc, hc0, hslot⟩ := hp
  obtain ⟨s1, h1, hinv1, hfr1, _, c1, hc1, hci⟩ := selectPosition_inv s p hinv
  refine ⟨s1, h1, hinv1, hfr1, ?_⟩
  by_cases heq : p = c.index
  · have h2 := pos_changed_same { s with spin := p + 1 } c hc (by simp [heq])
    have h3 : some s1 = some { s with spin := p + 1 } := h1.symm.trans h2
    rw [Option.some.inj h3]
    exact ⟨hpn, hpl, c, hc, hc0, hslot⟩
  · have hne : ({ s with spin := p + 1 } : Dialog).spin - 1 ≠ c.index := by
      simpa using heq
    have h2 := pos_changed_other { s with spin := p + 1 } c hc hne
    have h3 : some s1 = some _ := h1.symm.trans h2
    have htrace : panel_after panel0 s1.trace =
        panel_move (panel_after panel0 s.trace) c.index p := by
      rw [Option.some.inj h3]
      show panel_after panel0 (s.trace ++ [.groups_move c.index (p + 1 - 1)]) = _
      rw [panel_after_append, Int.add_sub_cancel]
      rfl
    obtain ⟨m1, m2, m3⟩ := panel_move_slot (panel_after panel0 s.trace) item c.index p
      hpn hc0 hslot ⟨hrange.1, by rw [hpl]; exact hrange.2⟩
    rw [panel_inv, htrace, hfr1.2.2.2.1]
    refine ⟨m1, by rw [m2]; exact hpl, c1, hc1, by rw [hci]; exact hrange.1, ?_⟩
    rw [hci]
    exact m3

/-- Type and position selections keep the dialog and the panel in step: from
a state where the index of the current control names the slot of the item,
any sequence of such events that the widgets can deliver runs, and afterwards
the index of the current control again names the slot that the item occupies
in the panel list.  (`controls_dialog_revert` is not among the events
here.) -/
theorem selections_track_slot (panel0 : List Nat) (item : Nat) (evs : List UiEvent) :
    ∀ s : Dialog, Inv s → panel_inv panel0 item s →
      (∀ e ∈ evs, admissible s e ∧ e ≠ UiEvent.revert) →
      ∃ s1 c, run_events s evs = some s1 ∧ panel_inv panel0 item s1 ∧
        deref s1.heap s1.current_control = some c ∧
        (slot_of item (panel_after panel0 s1.trace) : Int) = c.index := by
  induction evs with
  | nil =>
    intro s _ hp _
    obtain ⟨hpn, hpl, c, hc, hc0, hslot⟩ := hp
    refine ⟨s, c, rfl, ⟨hpn, hpl, c, hc, hc0, hslot⟩, hc, ?_⟩
    obtain ⟨hlt, hget⟩ := List.getElem?_eq_some.mp hslot
    have hidx := List.indexOf_getElem hpn c.index.toNat hlt
    rw [hget] at hidx
    rw [slot_of, hidx]
    omega
  | cons e rest ih =>
    intro s hinv hp ha
    have hae := ha e (List.mem_cons_self e rest)
    have hstep : ∃ s1, step s e = some s1 ∧ Inv s1 ∧ same_frame s s1 ∧
        panel_inv panel0 item s1 := by
      cases e with
      | selectType n => exact selectType_panel panel0 item s n hinv hae.1 hp
      | selectPosition p => exact selectPosition_panel panel0 item s p hinv hae.1 hp
      | revert => exact absurd rfl hae.2
    obtain ⟨s1, h1, hinv1, hfr1, hp1⟩ := hstep
    obtain ⟨s2, c, h2, hp2, hc2, hs2⟩ := ih s1 hinv1 hp1
      (fun e1 he1 => ⟨admissible_frame hfr1 e1 (ha e1 (List.mem_cons_of_mem e he1)).1,
        (ha e1 (List.mem_cons_of_mem e he1)).2⟩)
    refine ⟨s2, c, ?_, hp2, hc2, hs2⟩
    simp only [run_events, h1]
    exact h2

/-! ## Revert when the panel renumbers the control it moves -/

theorem exDialog_setup :
    controls_dialog_setup [some exA] [7, 8, 9] 4 true 0 = some exDialog := by decide

/-- For every state that satisfies the invariant, `controls_dialog_revert`
returns.  When the current index is the kept one it adds no reorder request.
Otherwise it adds one request when `groups_move` stores the new slot in the
control, and two equal ones when it does not: the call in
`controls_dialog_revert` itself and the call in `pos_changed`, which then
still finds the old index when the spinner is set back. -/
theorem revert_requests (s : Dialog) (hinv : Inv s) :
    ∃ s1 c0, controls_dialog_revert s = some s1 ∧
      deref s.heap s.current_control = some c0 ∧
      moves s1.trace = moves s.trace ++
        (if s.backup_index ≠ c0.index then
          (if s.panel_renumbers then [.groups_move c0.index s.backup_index]
            else [.groups_move c0.index s.backup_index,
                  .groups_move c0.index s.backup_index])
        else []) := by
  obtain ⟨s1, _, c0, h1, _, _, _, _, _, _, h2, h3⟩ := revert_inv s hinv
  exact ⟨s1, c0, h1, h2, h3⟩

/-- C1, at the scenario of the specification: candidates `[A, B, C]` with `A`
the original in slot 2; after `selectType 1` and `selectPosition 0`, revert
makes `A` (control 0) current again with index 2. -/
theorem revert_restores_original_witness :
    (deref [some exA] 0 = some exA ∧ (0 ≤ exA.index ∧ exA.index < 4)) ∧
      ∃ s s1, run_events exDialog [.selectType 1, .selectPosition 0] = some s ∧
        controls_dialog_revert s = some s1 ∧ s1.current_control = 0 ∧
        (deref s1.heap 0).map (fun c => c.index) = some 2 := by
  obtain ⟨s0, h0, hall⟩ :=
    revert_restores_original [some exA] [7, 8, 9] 4 true 0 exA rfl (by decide)
  have hs0 : s0 = exDialog := Option.some.inj (h0.symm.trans exDialog_setup)
  subst hs0
  have hadm : ∀ e ∈ [UiEvent.selectType 1, UiEvent.selectPosition 0],
      admissible exDialog e := by
    intro e he
    simp only [List.mem_cons, List.mem_singleton, List.not_mem_nil, or_false] at he
    rcases he with rfl | rfl
    · show 1 < exDialog.control_list.length
      decide
    · show (0 : Int) ≤ 0 ∧ (0 : Int) < exDialog.num_groups
      decide
  obtain ⟨s, s1, c1, hs, hs1, hcur, _, hd, hidx, hback⟩ := hall _ hadm
  refine ⟨⟨rfl, by decide⟩, s, s1, hs, hs1, hcur, ?_⟩
  rw [hd]
  show some c1.index = some 2
  rw [hidx, hback]
  rfl

/-- C3 as stated fails: in the scenario the state at the remove request is
`exDialogB`, whose revert button is sensitive; after the confirmation is
declined the dialog runs again in `exDeclined`, whose revert button is not. -/
theorem remove_declined_resets_revert_button :
    gtk_dialog_run { exDialog with revert_sensitive := false } exDecline = some exDialogB ∧
      controls_dialog_loop 0 exDialog [exDecline] = some (.running exDeclined) ∧
      exDialogB.revert_sensitive = true ∧
      exDeclined.revert_sensitive = false ∧
      exDeclined.revert_sensitive ≠ exDialogB.revert_sensitive := by decide

/-- C3, as the code has it, at the scenario: after the declined removal the
dialog runs in the state it had at the request, with the confirmation prompt
added to the trace and the revert button insensitive. -/
theorem remove_declined_keeps_dialog_witness :
    (exDecline.response = RESPONSE_REMOVE ∧ exA.with_popup = true ∧
        exDecline.confirm = false) ∧
      controls_dialog_loop 0 exDialog [exDecline] = some (.running { exDialogB with
        revert_sensitive := false
        trace := exDialogB.trace ++ [.confirm] }) :=
  ⟨⟨rfl, rfl, rfl⟩,
    (remove_declined_keeps_dialog 0 exDialog exDialogB exDecline [] exA rfl
      (by decide) rfl rfl rfl).2⟩

/-- C4, at the scenario with `B` current: `A` and `C` are released, `B` is
live and the list is empty. -/
theorem clear_control_list_keeps_current_witness :
    (exDialogB.control_list.Nodup ∧ exDialogB.current_control ∈ exDialogB.control_list) ∧
      ∃ s1, clear_control_list exDialogB = some s1 ∧ s1.control_list = [] ∧
        s1.trace = exDialogB.trace ++ [.control_free 0, .control_free 2] ∧
        deref s1.heap 1 = some exB := by
  obtain ⟨s1, h1, h2, _, h4, _, _, h7, _, _⟩ :=
    clear_control_list_keeps_current exDialogB (by decide) (by decide) (by decide)
  exact ⟨⟨by decide, by decide⟩, s1, h1, h2, h4, h7⟩

/-- C5, at the scenario: `selectType 1` makes `B` current with index 2 and the
revert button sensitive, and emits no reorder request. -/
theorem selectType_switches_witness :
    (1 < exDialog.control_list.length ∧ (1 : Nat) ≠ exDialog.current_control) ∧
      ∃ s1, selectType 1 exDialog = some s1 ∧ s1.current_control = 1 ∧
        deref s1.heap 1 = some exB ∧ s1.revert_sensitive = true ∧
        moves s1.trace = [] := by
  obtain ⟨s1, h1, h2, h3, _, _, _, _, _, h9, _, h11⟩ :=
    selectType_switches exDialog 1 exA exB (by decide) (by decide) rfl rfl
  exact ⟨⟨by decide, by decide⟩, s1, h1, h2, h3, h9, h11⟩

/-- C6, at the scenario: `selectType 1` twice is `selectType 1` once. -/
theorem selectType_idempotent_witness :
    1 < exDialog.control_list.length ∧
      ∃ s1, selectType 1 exDialog = some s1 ∧ selectType 1 s1 = some s1 := by
  obtain ⟨s1, h1, h2, _⟩ := selectType_idempotent exDialog 1 exA exB (by decide) rfl rfl
  exact ⟨by decide, s1, h1, h2⟩

/-- C7, at the scenario: `A` is in slot 2 and the spinner shows it; setting
the spinner to slot 2 returns the state as it was. -/
theorem selectPosition_same_is_noop_witness :
    deref exDialog.heap exDialog.current_control = some exA ∧
      selectPosition exA.index exDialog = some exDialog :=
  ⟨rfl, (selectPosition_same_is_noop exDialog exA rfl).2.2 rfl⟩

/-- C9 as stated fails: with the known classes `7, 8, 9` and an original
control of class 7 the list has three entries, not four, and the heap holds
no second control of class 7. -/
theorem create_control_list_skips_own_class :
    (create_control_list [7, 8, 9] 0 exEmpty).map (fun s => (s.control_list, s.heap)) =
        some ([0, 1, 2], [some exA, some exB, some exC]) ∧
      [0, 1, 2].length ≠ [7, 8, 9].length + 1 := by decide

/-- C9, as the code has it, at the scenario: the list is the original followed
by new controls for the classes 8 and 9. -/
theorem create_control_list_spec_witness :
    (exEmpty.control_list = [] ∧ deref exEmpty.heap 0 = some exA) ∧
      ∃ s1, create_control_list [7, 8, 9] 0 exEmpty = some s1 ∧
        s1.control_list = [0, 1, 2] ∧
        s1.heap = [some exA, some exB, some exC] ∧
        s1.control_list.length = 3 := by
  obtain ⟨s1, h1, h2, h3, h4, _⟩ := create_control_list_spec exEmpty [7, 8, 9] 0 exA rfl rfl
  exact ⟨⟨rfl, rfl⟩, s1, h1, h2, h3, h4⟩

/-- C10, at the scenario: with `B` current in slot 2, an accepted removal
closes the dialog and the only delete request names slot 2. -/
theorem remove_closes_dialog_witness :
    (exAccept.response = RESPONSE_REMOVE ∧ exAccept.confirm = true) ∧
      ∃ s2, controls_dialog_loop 0 exDialog [exAccept] =
          some (.closed s2 RESPONSE_REMOVE) ∧
        s2.trace = exDialogB.trace ++ [.confirm, .control_free 0, .control_free 2,
          .groups_remove 2, .write_panel_config] ∧
        removals s2.trace = [2] := by
  obtain ⟨s2, h1, h2, h3⟩ :=
    (remove_closes_dialog 0 exDialog exDialogB exAccept [] exA exB (by decide) rfl
      (by decide) (by decide) rfl).1 rfl (Or.inr rfl)
  exact ⟨⟨rfl, rfl⟩, s2, h1, h2, h3⟩

end ControlsDialog
